import Mathlib

/-!
Verification of the Memento text-editor repository:
TextEditor (originator), EditorSnapshot (memento) and HistoryManager
(caretaker), embedded from the TypeScript sources.

Conventions of the embedding:
- JS strings become List Char; String.substring with in-range indices
  becomes List.take / List.drop.
- JS number arguments become Rat, so that the Number.isInteger checks of
  the validated variant (src/models/textEditor.ts) are expressible:
  a rational q is an integer exactly when q.den = 1.
- The live editor fields cursorPosition and fontSize are kept as Nat:
  every operation of the source only ever stores non-negative integers
  in them (validation rejects negatives and non-integers).
- A method that can throw returns Option String (the thrown message)
  together with the object state when the method finished or threw;
  in the source every throw happens before the first field assignment,
  so the error case carries the unchanged state.
- The snapshot timestamp (a Date, documented as informational only and
  never read by the logic) is omitted.
-/

namespace Memento

/-- Live editor state, from class TextEditor
(TextEditor.ts and src/models/textEditor.ts). -/
structure TextEditor where
  content : List Char
  cursorPosition : Nat
  fontSize : Nat
deriving DecidableEq, Repr, Inhabited

/-- Memento, from class EditorSnapshot (src/models/editorSnapshot.ts).
The timestamp field is informational only and omitted. -/
structure EditorSnapshot where
  content : List Char
  cursorPosition : Nat
  fontSize : Nat
deriving DecidableEq, Repr, Inhabited

/-- EditorSnapshot.isValid. In this embedding content is always a string,
cursorPosition is a Nat hence never negative, and the timestamp is always
a Date, so only the fontSize check remains. -/
def EditorSnapshot.isValid (s : EditorSnapshot) : Bool :=
  decide (0 < s.fontSize)

/-- TextEditor.createSnapshot: copies the three state fields. -/
def createSnapshot (e : TextEditor) : EditorSnapshot :=
  ⟨e.content, e.cursorPosition, e.fontSize⟩

/-- TextEditor.restore: overwrites all three fields from the snapshot. -/
def restore (_e : TextEditor) (s : EditorSnapshot) : TextEditor :=
  ⟨s.content, s.cursorPosition, s.fontSize⟩

/-- TextEditor.write (validated variant): rejects empty text (in JS,
bang text is true for the empty string; the typeof check cannot fail in
a typed embedding), then splices text in at the cursor and advances the
cursor by its length. -/
def write (e : TextEditor) (text : List Char) : Option String × TextEditor :=
  if text.isEmpty then (some "Invalid text input", e)
  else
    (none, { e with
      content := e.content.take e.cursorPosition ++ text ++
                 e.content.drop e.cursorPosition,
      cursorPosition := e.cursorPosition + text.length })

/-- TextEditor.delete: rejects a negative or non-integer count; when the
cursor is at least count (for a validated count, count.num.toNat is its
value), removes the count characters before the cursor and moves the
cursor back; otherwise logs a warning and changes nothing. -/
def delete (e : TextEditor) (count : ℚ) : Option String × TextEditor :=
  if count < 0 ∨ count.den ≠ 1 then (some "Invalid delete count", e)
  else if count.num.toNat ≤ e.cursorPosition then
    (none, { e with
      content := e.content.take (e.cursorPosition - count.num.toNat) ++
                 e.content.drop e.cursorPosition,
      cursorPosition := e.cursorPosition - count.num.toNat })
  else (none, e)

/-- TextEditor.setCursor: rejects a negative or non-integer position,
otherwise stores max(0, min(position, content.length)). -/
def setCursor (e : TextEditor) (position : ℚ) : Option String × TextEditor :=
  if position < 0 ∨ position.den ≠ 1 then (some "Invalid cursor position", e)
  else
    (none, { e with
      cursorPosition := max 0 (min position.num.toNat e.content.length) })

/-- TextEditor.setFontSize: rejects a non-positive or non-integer size. -/
def setFontSize (e : TextEditor) (size : ℚ) : Option String × TextEditor :=
  if size ≤ 0 ∨ size.den ≠ 1 then (some "Invalid font size", e)
  else (none, { e with fontSize := size.num.toNat })

/-- Caretaker state, from class HistoryManager (HistoryManager.ts).
currentIndex starts at -1, so it is an Int. -/
structure HistoryManager where
  snapshots : List EditorSnapshot
  currentIndex : Int
  maxHistorySize : Nat
deriving DecidableEq, Repr

/-- The freshly constructed HistoryManager. -/
def freshHistory : HistoryManager := ⟨[], -1, 50⟩

/-- HistoryManager.saveState: slice(0, currentIndex + 1) drops the redo
branch (currentIndex is at least -1 in every reachable state, so the JS
negative-slice-index case does not arise), the new snapshot is pushed,
then either the oldest snapshot is shifted off (currentIndex untouched)
or currentIndex is incremented. -/
def saveState (h : HistoryManager) (e : TextEditor) : HistoryManager :=
  if h.maxHistorySize <
      (h.snapshots.take (h.currentIndex + 1).toNat ++ [createSnapshot e]).length
  then
    { h with snapshots :=
        (h.snapshots.take (h.currentIndex + 1).toNat ++ [createSnapshot e]).drop 1 }
  else
    { h with
      snapshots :=
        h.snapshots.take (h.currentIndex + 1).toNat ++ [createSnapshot e],
      currentIndex := h.currentIndex + 1 }

/-- HistoryManager.undo: only when currentIndex > 0; decrements the index
first and restores the snapshot now at currentIndex. The getD default is
never consulted: under the reachability invariant the index is in bounds. -/
def undo (h : HistoryManager) (e : TextEditor) :
    HistoryManager × TextEditor × Bool :=
  if 0 < h.currentIndex then
    ({ h with currentIndex := h.currentIndex - 1 },
     restore e (h.snapshots.getD (h.currentIndex - 1).toNat default), true)
  else (h, e, false)

/-- HistoryManager.redo: only when currentIndex < snapshots.length - 1;
increments the index and restores the snapshot at the new index. -/
def redo (h : HistoryManager) (e : TextEditor) :
    HistoryManager × TextEditor × Bool :=
  if h.currentIndex < (h.snapshots.length : ℤ) - 1 then
    ({ h with currentIndex := h.currentIndex + 1 },
     restore e (h.snapshots.getD (h.currentIndex + 1).toNat default), true)
  else (h, e, false)

/-- HistoryManager.canUndo. -/
def canUndo (h : HistoryManager) : Bool :=
  decide (0 < h.currentIndex)

/-- HistoryManager.canRedo. -/
def canRedo (h : HistoryManager) : Bool :=
  decide (h.currentIndex < (h.snapshots.length : ℤ) - 1)

/-- Reachability invariant of the ledger: currentIndex is at least -1 and
stays strictly below the number of stored snapshots (so the ledger with no
snapshots has index -1 and otherwise the index is in bounds). It holds for
the fresh ledger and is preserved by saveState, undo and redo. -/
def ledgerInv (h : HistoryManager) : Prop :=
  -1 ≤ h.currentIndex ∧ h.currentIndex < (h.snapshots.length : ℤ)

instance (h : HistoryManager) : Decidable (ledgerInv h) := by
  unfold ledgerInv; infer_instance

/-- Apply saveState m times, saving editor state f i at step i. -/
def saveSeq (f : ℕ → TextEditor) : ℕ → HistoryManager → HistoryManager
  | 0, h => h
  | m + 1, h => saveState (saveSeq f m h) (f m)

/-! The example trace of the spec and of the README code example:
fresh editor and ledger, saveState, write Hello, saveState, write World. -/

/-- Fresh editor: empty content, cursor 0, font size 12. -/
def demoE0 : TextEditor := ⟨[], 0, 12⟩

/-- Ledger after the first saveState (captures the empty state). -/
def demoH1 : HistoryManager := saveState freshHistory demoE0

/-- Editor after write Hello. -/
def demoE1 : TextEditor := (write demoE0 "Hello".toList).2

/-- Ledger after the second saveState (captures content Hello, cursor 5). -/
def demoH2 : HistoryManager := saveState demoH1 demoE1

/-- Editor after write World. -/
def demoE2 : TextEditor := (write demoE1 " World!".toList).2

/-- C1: the claim says a single undo after saveState-then-mutate restores
the state captured by that saveState. The code does not: after one
saveState (capturing the empty state) and a mutation, undo returns false
and restores nothing; after a second saveState capturing content Hello and
cursor 5 followed by a mutation, undo returns true but restores the empty
capture from the first save, not the one from the save point. -/
theorem c1_undo_misses_savepoint :
    undo demoH1 demoE1 = (demoH1, demoE1, false) ∧
    (undo demoH2 demoE2).2.2 = true ∧
    (undo demoH2 demoE2).2.1 = ⟨[], 0, 12⟩ ∧
    (undo demoH2 demoE2).2.1 ≠ ⟨"Hello".toList, 5, 12⟩ := by decide

/-- C2: on the spec example sequence the code diverges from the claimed
trace: the writes do produce content Hello World with cursor 12, but the
first undo restores the empty state (the claim says content Hello, cursor
5), the second undo already returns false leaving state unchanged (the
claim says it succeeds to the empty state and only the third returns
false), and redo from there returns true with content Hello, cursor 5. -/
theorem c2_example_trace_diverges :
    demoE1 = ⟨"Hello".toList, 5, 12⟩ ∧
    demoE2 = ⟨"Hello World!".toList, 12, 12⟩ ∧
    (undo demoH2 demoE2).2.2 = true ∧
    (undo demoH2 demoE2).2.1 = ⟨[], 0, 12⟩ ∧
    (undo demoH2 demoE2).2.1 ≠ ⟨"Hello".toList, 5, 12⟩ ∧
    undo (undo demoH2 demoE2).1 (undo demoH2 demoE2).2.1 =
      ((undo demoH2 demoE2).1, (undo demoH2 demoE2).2.1, false) ∧
    redo (undo demoH2 demoE2).1 (undo demoH2 demoE2).2.1 =
      (demoH2, ⟨"Hello".toList, 5, 12⟩, true) := by decide

/-- C3 (counterexample): on the reachable pair reached by the example
trace, the document is in state D with content Hello World and cursor 12,
undo succeeds, the immediately following redo returns true, yet the
document it restores is not D. -/
theorem c3_counterexample :
    (undo demoH2 demoE2).2.2 = true ∧
    (redo (undo demoH2 demoE2).1 (undo demoH2 demoE2).2.1).2.2 = true ∧
    (redo (undo demoH2 demoE2).1 (undo demoH2 demoE2).2.1).2.1 ≠ demoE2 := by
  decide

/-- C3 (amended): when the document state agrees with the capture at
currentIndex (as it does immediately after any undo or redo), a
successful undo followed by redo returns true and restores both the
ledger and the document exactly; hence any number of consecutive
undo/redo pairs round-trips. Without that proviso the claim fails, since
the state mutated after the last save is never stored in the ledger. -/
theorem c3_redo_inverts_undo (h : HistoryManager) (e : TextEditor)
    (hinv : ledgerInv h)
    (hdoc : h.snapshots.getD h.currentIndex.toNat default = createSnapshot e)
    (hu : (undo h e).2.2 = true) :
    redo (undo h e).1 (undo h e).2.1 = (h, e, true) := by
  obtain ⟨snaps, ci, cap⟩ := h
  obtain ⟨hge, hlt⟩ := hinv
  have hg : 0 < ci := by
    by_contra hg
    simp only [undo, if_neg hg] at hu
    exact Bool.false_ne_true hu
  simp only [undo, if_pos hg] at hdoc ⊢
  simp only [redo]
  rw [if_pos (by push_cast at hlt ⊢; omega)]
  have hidx : ci - 1 + 1 = ci := by omega
  simp only [hidx, hdoc, restore, createSnapshot]

/-- C4: from any ledger satisfying the reachability invariant (in
particular after any run of undo calls), saveState first drops every
capture at positions strictly beyond currentIndex and then appends the
new capture (possibly shedding the oldest entry under capacity
pressure), and immediately afterwards canRedo is false and redo returns
false leaving ledger and document unchanged. -/
theorem c4_saveState_discards_redo_branch (h : HistoryManager)
    (e e2 : TextEditor) (hinv : ledgerInv h) :
    ((saveState h e).snapshots =
        h.snapshots.take (h.currentIndex + 1).toNat ++ [createSnapshot e] ∨
      (saveState h e).snapshots =
        (h.snapshots.take (h.currentIndex + 1).toNat ++
          [createSnapshot e]).drop 1) ∧
    canRedo (saveState h e) = false ∧
    redo (saveState h e) e2 = (saveState h e, e2, false) := by
  obtain ⟨hge, hlt⟩ := hinv
  have hTL : (h.currentIndex + 1).toNat ≤ h.snapshots.length := by omega
  have hlen : (h.snapshots.take (h.currentIndex + 1).toNat).length =
      (h.currentIndex + 1).toNat := by
    rw [List.length_take]; omega
  have htop : ∀ h2 : HistoryManager,
      ¬ h2.currentIndex < (h2.snapshots.length : ℤ) - 1 →
      canRedo h2 = false ∧ redo h2 e2 = (h2, e2, false) := by
    intro h2 hg
    refine ⟨by simp [canRedo, hg], ?_⟩
    unfold redo
    rw [if_neg hg]
  by_cases hcap : h.maxHistorySize <
      ((h.snapshots.take (h.currentIndex + 1).toNat ++
        [createSnapshot e]).length)
  · have hsave : saveState h e =
        { h with snapshots :=
            (h.snapshots.take (h.currentIndex + 1).toNat ++
              [createSnapshot e]).drop 1 } := by
      unfold saveState
      rw [if_pos hcap]
    have hlen2 : (saveState h e).snapshots.length = (h.currentIndex + 1).toNat := by
      rw [hsave]
      simp only [List.length_drop, List.length_append, List.length_singleton,
        hlen]
      omega
    have hci : (saveState h e).currentIndex = h.currentIndex := by rw [hsave]
    have hguard : ¬ (saveState h e).currentIndex <
        ((saveState h e).snapshots.length : ℤ) - 1 := by
      rw [hci, hlen2]; omega
    exact ⟨Or.inr (by rw [hsave]), (htop _ hguard).1, (htop _ hguard).2⟩
  · have hsave : saveState h e =
        { h with
          snapshots :=
            h.snapshots.take (h.currentIndex + 1).toNat ++ [createSnapshot e],
          currentIndex := h.currentIndex + 1 } := by
      unfold saveState
      rw [if_neg hcap]
    have hlen2 : (saveState h e).snapshots.length =
        (h.currentIndex + 1).toNat + 1 := by
      rw [hsave]
      simp only [List.length_append, List.length_singleton, hlen]
    have hci : (saveState h e).currentIndex = h.currentIndex + 1 := by
      rw [hsave]
    have hguard : ¬ (saveState h e).currentIndex <
        ((saveState h e).snapshots.length : ℤ) - 1 := by
      rw [hci, hlen2]; omega
    exact ⟨Or.inl (by rw [hsave]), (htop _ hguard).1, (htop _ hguard).2⟩

/-- Closed instance of the C4 theorem: a two-snapshot ledger sitting at
index 0 (as after an undo); after saveState the undone capture is gone,
canRedo is false and redo is a refused no-op. -/
theorem c4_saveState_discards_redo_branch_witness :
    (saveState ⟨[⟨[], 0, 12⟩, ⟨['a'], 1, 12⟩], 0, 50⟩
        ⟨['b'], 1, 12⟩).snapshots = [⟨[], 0, 12⟩, ⟨['b'], 1, 12⟩] ∧
    canRedo (saveState ⟨[⟨[], 0, 12⟩, ⟨['a'], 1, 12⟩], 0, 50⟩
        ⟨['b'], 1, 12⟩) = false ∧
    redo (saveState ⟨[⟨[], 0, 12⟩, ⟨['a'], 1, 12⟩], 0, 50⟩ ⟨['b'], 1, 12⟩)
        ⟨[], 0, 12⟩ =
      (saveState ⟨[⟨[], 0, 12⟩, ⟨['a'], 1, 12⟩], 0, 50⟩ ⟨['b'], 1, 12⟩,
        ⟨[], 0, 12⟩, false) := by
  have h := c4_saveState_discards_redo_branch
    ⟨[⟨[], 0, 12⟩, ⟨['a'], 1, 12⟩], 0, 50⟩ ⟨['b'], 1, 12⟩ ⟨[], 0, 12⟩
    (by decide)
  exact ⟨by decide, h.2.1, h.2.2⟩

/-- After m saveState calls on a fresh ledger of capacity N, the capacity
is still N, min m N captures are stored, and currentIndex is one below
the stored count. -/
theorem saveSeq_fresh_spec (N : ℕ) (f : ℕ → TextEditor) (m : ℕ) :
    (saveSeq f m ⟨[], -1, N⟩).maxHistorySize = N ∧
    (saveSeq f m ⟨[], -1, N⟩).snapshots.length = min m N ∧
    (saveSeq f m ⟨[], -1, N⟩).currentIndex = ((min m N : ℕ) : ℤ) - 1 := by
  induction m with
  | zero =>
    refine ⟨rfl, ?_, ?_⟩
    · show ([] : List EditorSnapshot).length = min 0 N
      simp
    · show (-1 : ℤ) = ((min 0 N : ℕ) : ℤ) - 1
      simp
  | succ m ih =>
    obtain ⟨ihc, ihl, ihi⟩ := ih
    set g := saveSeq f m ⟨[], -1, N⟩ with hgdef
    have hstep : saveSeq f (m + 1) ⟨[], -1, N⟩ = saveState g (f m) := rfl
    have htn : (g.currentIndex + 1).toNat = min m N := by
      rw [ihi]; omega
    have htk : g.snapshots.take (g.currentIndex + 1).toNat = g.snapshots := by
      rw [htn, ← ihl, List.take_length]
    have hplen : (g.snapshots.take (g.currentIndex + 1).toNat ++
        [createSnapshot (f m)]).length = min m N + 1 := by
      rw [htk, List.length_append, List.length_singleton, ihl]
    by_cases hcap : g.maxHistorySize <
        (g.snapshots.take (g.currentIndex + 1).toNat ++
          [createSnapshot (f m)]).length
    · have hNm : N ≤ m := by
        rw [ihc, hplen] at hcap; omega
      have hsave : saveState g (f m) =
          { g with snapshots :=
              (g.snapshots.take (g.currentIndex + 1).toNat ++
                [createSnapshot (f m)]).drop 1 } := by
        unfold saveState
        rw [if_pos hcap]
      rw [hstep, hsave]
      refine ⟨ihc, ?_, ?_⟩
      · show ((g.snapshots.take (g.currentIndex + 1).toNat ++
            [createSnapshot (f m)]).drop 1).length = min (m + 1) N
        rw [List.length_drop, hplen]
        omega
      · show g.currentIndex = ((min (m + 1) N : ℕ) : ℤ) - 1
        rw [ihi]
        have : min m N = min (m + 1) N := by omega
        rw [this]
    · have hmN : m < N := by
        rw [ihc, hplen] at hcap; omega
      have hsave : saveState g (f m) =
          { g with
            snapshots :=
              g.snapshots.take (g.currentIndex + 1).toNat ++
                [createSnapshot (f m)],
            currentIndex := g.currentIndex + 1 } := by
        unfold saveState
        rw [if_neg hcap]
      rw [hstep, hsave]
      refine ⟨ihc, ?_, ?_⟩
      · show (g.snapshots.take (g.currentIndex + 1).toNat ++
            [createSnapshot (f m)]).length = min (m + 1) N
        rw [hplen]
        omega
      · show g.currentIndex + 1 = ((min (m + 1) N : ℕ) : ℤ) - 1
        rw [ihi]
        omega

/-- C5: for capacity N and any k strictly positive, after N + k saveState
calls on a fresh ledger (no intervening undo) exactly N captures are
stored and currentIndex is at most N - 1; moreover a single saveState in
the eviction case (the pushed sequence would exceed capacity) drops the
oldest capture, index 0, and leaves currentIndex unchanged, while in the
non-eviction case it increments currentIndex. -/
theorem c5_capacity_pins_history (N k : ℕ) (hN : 0 < N) (hk : 0 < k)
    (f : ℕ → TextEditor) :
    ((saveSeq f (N + k) ⟨[], -1, N⟩).snapshots.length = N ∧
      (saveSeq f (N + k) ⟨[], -1, N⟩).currentIndex ≤ (N : ℤ) - 1) ∧
    (∀ (h : HistoryManager) (e : TextEditor),
      (h.maxHistorySize <
          (h.snapshots.take (h.currentIndex + 1).toNat ++
            [createSnapshot e]).length →
        saveState h e =
          ⟨(h.snapshots.take (h.currentIndex + 1).toNat ++
              [createSnapshot e]).drop 1,
            h.currentIndex, h.maxHistorySize⟩) ∧
      (¬ h.maxHistorySize <
          (h.snapshots.take (h.currentIndex + 1).toNat ++
            [createSnapshot e]).length →
        saveState h e =
          ⟨h.snapshots.take (h.currentIndex + 1).toNat ++ [createSnapshot e],
            h.currentIndex + 1, h.maxHistorySize⟩)) := by
  constructor
  · obtain ⟨-, hl, hi⟩ := saveSeq_fresh_spec N f (N + k)
    have hmin : min (N + k) N = N := by omega
    rw [hmin] at hl hi
    exact ⟨hl, by rw [hi]⟩
  · intro h e
    constructor
    · intro hcap
      simp only [saveState, if_pos hcap]
    · intro hcap
      simp only [saveState, if_neg hcap]

/-- Closed instance of the C5 theorem at capacity 2 after 3 saves: the
ledger holds exactly 2 captures with currentIndex at most 1. -/
theorem c5_capacity_pins_history_witness :
    (saveSeq (fun _ => ⟨[], 0, 12⟩) 3 ⟨[], -1, 2⟩).snapshots.length = 2 ∧
    (saveSeq (fun _ => ⟨[], 0, 12⟩) 3 ⟨[], -1, 2⟩).currentIndex ≤
      (2 : ℤ) - 1 :=
  (c5_capacity_pins_history 2 1 (by decide) (by decide)
    (fun _ => ⟨[], 0, 12⟩)).1

/-- Closed instance of the amended C3 theorem on a concrete two-snapshot
ledger whose document matches the capture at the current index. -/
theorem c3_redo_inverts_undo_witness :
    redo (undo ⟨[⟨[], 0, 12⟩, ⟨['a'], 1, 12⟩], 1, 50⟩ ⟨['a'], 1, 12⟩).1
        (undo ⟨[⟨[], 0, 12⟩, ⟨['a'], 1, 12⟩], 1, 50⟩ ⟨['a'], 1, 12⟩).2.1 =
      (⟨[⟨[], 0, 12⟩, ⟨['a'], 1, 12⟩], 1, 50⟩, ⟨['a'], 1, 12⟩, true) :=
  c3_redo_inverts_undo _ _ (by decide) (by decide) (by decide)

/-- C6: on any document satisfying the data-model invariant (cursor within
the text), write of a non-empty text followed by delete of its length
returns the exact pre-write document with no error; and neither write nor
delete ever changes the font size, on any input whatsoever. -/
theorem c6_delete_undoes_write (e : TextEditor) (t : List Char)
    (ht : t ≠ []) (hc : e.cursorPosition ≤ e.content.length) :
    Memento.delete (write e t).2 ((t.length : ℚ)) = (none, e) ∧
    (∀ (t2 : List Char) (q : ℚ),
      (write e t2).2.fontSize = e.fontSize ∧
      (Memento.delete e q).2.fontSize = e.fontSize) := by
  constructor
  · have hw : (write e t).2 =
        ⟨e.content.take e.cursorPosition ++ t ++
          e.content.drop e.cursorPosition,
          e.cursorPosition + t.length, e.fontSize⟩ := by
      unfold write
      rw [if_neg (by simp [List.isEmpty_iff, ht])]
    have hqg : ¬(((t.length : ℚ)) < 0 ∨ ((t.length : ℚ)).den ≠ 1) := by
      push_neg
      exact ⟨by positivity, Rat.den_natCast t.length⟩
    have hnum : ((t.length : ℚ)).num.toNat = t.length := by
      simp
    have htkc : (e.content.take e.cursorPosition).length = e.cursorPosition := by
      rw [List.length_take]; omega
    have h1 : (e.content.take e.cursorPosition ++ t ++
        e.content.drop e.cursorPosition).take e.cursorPosition =
        e.content.take e.cursorPosition := by
      rw [List.append_assoc, List.take_left' htkc]
    have h2 : (e.content.take e.cursorPosition ++ t ++
        e.content.drop e.cursorPosition).drop (e.cursorPosition + t.length) =
        e.content.drop e.cursorPosition := by
      refine List.drop_left' ?_
      rw [List.length_append, htkc]
    rw [hw]
    unfold Memento.delete
    rw [if_neg hqg]
    simp only [hnum]
    rw [if_pos (Nat.le_add_left t.length e.cursorPosition)]
    simp only [Nat.add_sub_cancel, h1, h2, List.take_append_drop]
  · intro t2 q
    constructor
    · unfold write
      split <;> rfl
    · unfold Memento.delete
      split
      · rfl
      · split <;> rfl

/-- Closed instance of the C6 theorem: on the document with content a and
cursor 1, writing b and deleting one character restores it exactly. -/
theorem c6_delete_undoes_write_witness :
    Memento.delete (write ⟨['a'], 1, 12⟩ ['b']).2
        (((['b'] : List Char).length : ℚ)) = (none, ⟨['a'], 1, 12⟩) :=
  (c6_delete_undoes_write ⟨['a'], 1, 12⟩ ['b'] (by decide) (by decide)).1

/-- C7: delete fails with a validation error exactly when the count is
negative or non-integer; for a valid count n it never errors, is a no-op
when the cursor offset is below n, and otherwise removes the n characters
immediately before the cursor, moving the cursor back by n (so under the
cursor-within-text invariant the content shrinks by exactly n). -/
theorem c7_delete_contract (e : TextEditor) (q : ℚ) :
    ((Memento.delete e q).1 ≠ none ↔ (q < 0 ∨ q.den ≠ 1)) ∧
    (∀ n : ℕ, q = (n : ℚ) →
      (e.cursorPosition < n → Memento.delete e q = (none, e)) ∧
      (n ≤ e.cursorPosition →
        Memento.delete e q =
          (none, ⟨e.content.take (e.cursorPosition - n) ++
              e.content.drop e.cursorPosition,
            e.cursorPosition - n, e.fontSize⟩)) ∧
      (n ≤ e.cursorPosition → e.cursorPosition ≤ e.content.length →
        (Memento.delete e q).2.content.length = e.content.length - n)) := by
  constructor
  · constructor
    · intro hne
      by_contra hcond
      unfold Memento.delete at hne
      rw [if_neg hcond] at hne
      revert hne
      split <;> simp
    · intro hcond
      unfold Memento.delete
      rw [if_pos hcond]
      simp
  · intro n hn
    have hng : ¬(q < 0 ∨ q.den ≠ 1) := by
      subst hn
      push_neg
      exact ⟨by positivity, Rat.den_natCast n⟩
    have hnum : q.num.toNat = n := by
      subst hn; simp
    refine ⟨?_, ?_, ?_⟩
    · intro hlt
      unfold Memento.delete
      rw [if_neg hng, if_neg (by rw [hnum]; omega)]
    · intro hle
      unfold Memento.delete
      rw [if_neg hng, if_pos (by rw [hnum]; exact hle), hnum]
    · intro hle hcl
      unfold Memento.delete
      rw [if_neg hng, if_pos (by rw [hnum]; exact hle), hnum]
      show (e.content.take (e.cursorPosition - n) ++
        e.content.drop e.cursorPosition).length = e.content.length - n
      rw [List.length_append, List.length_take, List.length_drop]
      omega

/-- Closed instance of the C7 theorem: deleting 3 at cursor 1 is an
error-free no-op, and deleting 2 at cursor 3 of a three-character text
removes the two characters before the cursor. -/
theorem c7_delete_contract_witness :
    Memento.delete ⟨['a'], 1, 12⟩ ((3 : ℕ) : ℚ) = (none, ⟨['a'], 1, 12⟩) ∧
    Memento.delete ⟨['a', 'b', 'c'], 3, 12⟩ ((2 : ℕ) : ℚ) =
      (none, ⟨['a'], 1, 12⟩) := by
  have h := c7_delete_contract ⟨['a'], 1, 12⟩ ((3 : ℕ) : ℚ)
  have h2 := c7_delete_contract ⟨['a', 'b', 'c'], 3, 12⟩ ((2 : ℕ) : ℚ)
  exact ⟨(h.2 3 rfl).1 (by decide), (h2.2 2 rfl).2.1 (by decide)⟩

/-- C8: setCursor fails with a validation error exactly when the position
is negative or non-integer; for a valid position n it succeeds and stores
min n (length of the text), clamping past-the-end requests. -/
theorem c8_setCursor_contract (e : TextEditor) (q : ℚ) :
    ((setCursor e q).1 ≠ none ↔ (q < 0 ∨ q.den ≠ 1)) ∧
    (∀ n : ℕ, q = (n : ℚ) →
      setCursor e q =
        (none, ⟨e.content, min n e.content.length, e.fontSize⟩)) := by
  constructor
  · constructor
    · intro hne
      by_contra hcond
      unfold setCursor at hne
      rw [if_neg hcond] at hne
      simp at hne
    · intro hcond
      unfold setCursor
      rw [if_pos hcond]
      simp
  · intro n hn
    have hng : ¬(q < 0 ∨ q.den ≠ 1) := by
      subst hn
      push_neg
      exact ⟨by positivity, Rat.den_natCast n⟩
    have hnum : q.num.toNat = n := by
      subst hn; simp
    unfold setCursor
    rw [if_neg hng, hnum, Nat.zero_max]

/-- Closed instance of the C8 theorem: requesting position 1000 on a
five-character text clamps the cursor to 5 without failing. -/
theorem c8_setCursor_contract_witness :
    setCursor ⟨"Hello".toList, 0, 12⟩ ((1000 : ℕ) : ℚ) =
      (none, ⟨"Hello".toList, 5, 12⟩) := by
  have h := (c8_setCursor_contract ⟨"Hello".toList, 0, 12⟩
    ((1000 : ℕ) : ℚ)).2 1000 rfl
  simpa using h

/-- C9: whenever write, delete, setCursor or setFontSize rejects its
argument with a validation error, the returned document state is exactly
the pre-call state: no partial change is observable on error. -/
theorem c9_validation_preserves_state (e : TextEditor) (t : List Char)
    (q r s : ℚ) :
    ((write e t).1 ≠ none → (write e t).2 = e) ∧
    ((Memento.delete e q).1 ≠ none → (Memento.delete e q).2 = e) ∧
    ((setCursor e r).1 ≠ none → (setCursor e r).2 = e) ∧
    ((setFontSize e s).1 ≠ none → (setFontSize e s).2 = e) := by
  refine ⟨?_, ?_, ?_, ?_⟩
  · unfold write
    split <;> simp
  · unfold Memento.delete
    split
    · simp
    · split <;> simp
  · unfold setCursor
    split <;> simp
  · unfold setFontSize
    split <;> simp

/-- Closed instance of the C9 theorem: a rejected empty write, a rejected
delete of -1, a rejected setCursor of -1 and a rejected setFontSize of 0
all leave the document exactly as it was. -/
theorem c9_validation_preserves_state_witness :
    (write ⟨['a'], 1, 12⟩ []).2 = ⟨['a'], 1, 12⟩ ∧
    (Memento.delete ⟨['a'], 1, 12⟩ (-1)).2 = ⟨['a'], 1, 12⟩ ∧
    (setCursor ⟨['a'], 1, 12⟩ (-1)).2 = ⟨['a'], 1, 12⟩ ∧
    (setFontSize ⟨['a'], 1, 12⟩ 0).2 = ⟨['a'], 1, 12⟩ := by
  have h := c9_validation_preserves_state ⟨['a'], 1, 12⟩ [] (-1) (-1) 0
  exact ⟨h.1 (by decide), h.2.1 (by decide), h.2.2.1 (by decide),
    h.2.2.2 (by decide)⟩

/-- C10: restoring a document from its own snapshot leaves it unchanged,
and for every valid capture, restoring the capture and snapshotting again
agrees with the capture on content, cursor position and font size. -/
theorem c10_snapshot_restore_roundtrip (e e2 : TextEditor)
    (c : EditorSnapshot) (hc : c.isValid = true) :
    restore e (createSnapshot e) = e ∧
    (createSnapshot (restore e2 c)).content = c.content ∧
    (createSnapshot (restore e2 c)).cursorPosition = c.cursorPosition ∧
    (createSnapshot (restore e2 c)).fontSize = c.fontSize :=
  ⟨rfl, rfl, rfl, rfl⟩

/-- Closed instance of the C10 theorem on a concrete document and a
concrete valid capture. -/
theorem c10_snapshot_restore_roundtrip_witness :
    restore ⟨['a'], 1, 12⟩ (createSnapshot ⟨['a'], 1, 12⟩) = ⟨['a'], 1, 12⟩ ∧
    (createSnapshot (restore ⟨[], 0, 12⟩ ⟨['b'], 1, 14⟩)).content = ['b'] ∧
    (createSnapshot (restore ⟨[], 0, 12⟩ ⟨['b'], 1, 14⟩)).cursorPosition = 1 ∧
    (createSnapshot (restore ⟨[], 0, 12⟩ ⟨['b'], 1, 14⟩)).fontSize = 14 :=
  c10_snapshot_restore_roundtrip ⟨['a'], 1, 12⟩ ⟨[], 0, 12⟩ ⟨['b'], 1, 14⟩
    (by decide)

end Memento
